import Mathlib

/-!
Shallow embedding of `daily_strategy_cloud.py` (financial daily-report
generator) for checking its natural-language specification.

Modelling conventions:
* Python floats are modelled as exact rationals (`ℚ`); every claim under
  check is about exact arithmetic identities, sign tests and control flow,
  none about binary rounding.
* Exceptions are modelled explicitly: the body of each `try:` block is an
  `Except PyErr`-valued function, and the surrounding `except Exception`
  handler is the total function `absorb` mapping any error to the soft
  result (`none` / `[]`).  Python's float division raises
  `ZeroDivisionError`, hence the explicit zero test before `/` in the
  embedding (Lean's `/` on `ℚ` is total, the source's is not).
* Network I/O is not executed: each adapter takes the outcome of its HTTP
  request as an argument (`Except PyErr String` — either a transport
  failure such as a timeout, or the response text), and the feed/history
  libraries' parsed output is likewise passed in.  Logging is not modelled;
  the observable effect of a logged soft failure is the absent result.
-/

/-- Exception kinds that can arise inside the `try:` bodies of the source. -/
inductive PyErr where
  | timeout
  | network
  | indexError
  | valueError
  | zeroDivisionError
  | apiError
  | osError
  deriving DecidableEq, Repr

/-- The `except Exception: ... return none` pattern: any raised error is
caught and mapped to the soft result already chosen by the handler. -/
def absorb : Except PyErr (Option α) → Option α
  | .ok v => v
  | .error _ => none

/-- Digit-string to natural number (helper for `parseFloat`). -/
def natOfDigits (l : List Char) : ℕ :=
  l.foldl (fun n c => n * 10 + (c.toNat - ('0').toNat)) 0

/-- All characters are ASCII digits (helper for `parseFloat`). -/
def allDigits (l : List Char) : Bool :=
  l.all Char.isDigit

/-- Split a character list at every occurrence of `sep`, Python-style:
the empty input yields one empty field, `n` separators yield `n + 1`
fields.  (Structurally recursive stand-in for the single-character
`str.split` calls of the source.) -/
def splitOnChar (sep : Char) : List Char → List (List Char)
  | [] => [[]]
  | c :: r =>
      match splitOnChar sep r with
      | [] => if c = sep then [[], []] else [[c]]
      | g :: gs => if c = sep then [] :: g :: gs else (c :: g) :: gs

/-- Python `s.split(sep)` for a one-character separator. -/
def pySplit (s : String) (sep : Char) : List String :=
  (splitOnChar sep s.data).map String.mk

/-- Python `c in s` for a one-character needle. -/
def pyContains (s : String) (c : Char) : Bool :=
  s.data.any (fun x => x == c)

/-- The exact rational `±(ip + fp / 10 ^ len)` of a parsed decimal string,
assembled in `ℤ` first so that integer-valued inputs need no rational
arithmetic. -/
def ratOfDecimal (neg : Bool) (ip fp len : ℕ) : ℚ :=
  let n : ℤ := (ip * 10 ^ len + fp : ℕ)
  ((if neg then -n else n : ℤ) : ℚ) / ((10 ^ len : ℕ) : ℚ)

/-- Python's `float(s)` on the decimal strings the quote providers emit:
optional sign, integer part, optional fractional part.  (Exponent, `inf`,
`nan` and surrounding whitespace forms of Python's float grammar never
occur in these payloads and are not modelled; on them this parser fails,
i.e. behaves as a `ValueError`.) -/
def parseFloat (s : String) : Option ℚ :=
  let cs := s.data
  let neg : Bool := match cs with
    | '-' :: _ => true
    | _ => false
  let body : List Char := match cs with
    | '-' :: r => r
    | '+' :: r => r
    | _ => cs
  match pySplit (String.mk body) '.' with
  | [ip] =>
      if ip.data ≠ [] ∧ allDigits ip.data then
        some (((if neg then -(natOfDigits ip.data : ℤ)
                else (natOfDigits ip.data : ℤ)) : ℤ) : ℚ)
      else none
  | [ip, fp] =>
      if (ip.data ≠ [] ∨ fp.data ≠ []) ∧ allDigits ip.data ∧ allDigits fp.data then
        some (ratOfDecimal neg (natOfDigits ip.data) (natOfDigits fp.data)
          fp.data.length)
      else none
  | _ => none

/-- Left-pad a digit string with zeros to width `d`
(helper for fixed-point rendering). -/
def padZeros (d : ℕ) (s : String) : String :=
  String.mk (List.replicate (d - s.length) '0') ++ s

/-- Fixed-point rendering of a nonnegative rational with `d` decimals,
rounding half-up (stands in for Python's float `format`; no claim under
check depends on the tie-breaking direction). -/
def decimalsAbs (d : ℕ) (q : ℚ) : String :=
  let n : ℕ := (⌊q * (10 : ℚ) ^ d + 1 / 2⌋).toNat
  toString (n / 10 ^ d) ++ "." ++ padZeros d (toString (n % 10 ^ d))

/-- Python fixed-point format with `d` decimals. -/
def fmtFixedN (d : ℕ) (q : ℚ) : String :=
  (if q < 0 then "-" else "") ++ decimalsAbs d |q|

/-- Python fixed-point format with two decimals. -/
def fmtFixed2 (q : ℚ) : String := fmtFixedN 2 q

/-- Python always-signed fixed-point format with two decimals. -/
def fmtSigned2 (q : ℚ) : String :=
  (if q < 0 then "-" else "+") ++ decimalsAbs 2 |q|

/-- Insert a comma after every third digit of a reversed digit list
(helper for thousands grouping). -/
def commaRev : List Char → ℕ → List Char
  | [], _ => []
  | c :: r, 0 => ',' :: c :: commaRev r 2
  | c :: r, k + 1 => c :: commaRev r k

/-- Thousands grouping of a digit string, as in Python's `,` format flag. -/
def groupThousands (s : String) : String :=
  String.mk ((commaRev s.data.reverse 3).reverse)

/-- Python thousands-grouped fixed-point format with two decimals. -/
def fmtComma2 (q : ℚ) : String :=
  let n : ℕ := (⌊|q| * 100 + 1 / 2⌋).toNat
  (if q < 0 then "-" else "") ++
    groupThousands (toString (n / 100)) ++ "." ++ padZeros 2 (toString (n % 100))

/-- `MarketQuote` dataclass: one asset's quote.  `formatted_price` is the
optional display string (`None` in the source when no formatter is
configured). -/
structure MarketQuote where
  name : String
  price : ℚ
  change_pct : ℚ
  formatted_price : Option String := none
  deriving Repr, DecidableEq

/-- `MarketQuote.icon`: `"🔺" if self.change_pct > 0 else "💚"`. -/
def MarketQuote.icon (q : MarketQuote) : String :=
  if q.change_pct > 0 then "🔺" else "💚"

/-- The display price: `formatted_price` if truthy, else the price at two
decimals — Python `or` falls through on both `None` and the empty string. -/
def MarketQuote.display_price (q : MarketQuote) : String :=
  match q.formatted_price with
  | some s => if s = "" then fmtFixed2 q.price else s
  | none => fmtFixed2 q.price

/-- `MarketQuote.to_table_row`. -/
def MarketQuote.to_table_row (q : MarketQuote) : String :=
  "| " ++ q.name ++ " | " ++ q.display_price ++ " | " ++ q.icon ++ " " ++
    fmtSigned2 q.change_pct ++ "% |"

/-- One entry of `SINA_TICKERS` / `YAHOO_TICKERS`: provider symbol, display
name, optional pure display formatter. -/
structure TickerCfg where
  code : String
  name : String
  fmt : Option (ℚ → String) := none

/-- `MarketFetcher.SINA_TICKERS`. -/
def SINA_TICKERS : List TickerCfg :=
  [ ⟨"sh000001", "🇨🇳 上证指数", none⟩,
    ⟨"sz399006", "🇨🇳 创业板指", none⟩,
    ⟨"sh518880", "🟡 黄金价格(CNY)", some (fun p => fmtFixed2 (p * 100) ++ " 元/克")⟩ ]

/-- `MarketFetcher.YAHOO_TICKERS`. -/
def YAHOO_TICKERS : List TickerCfg :=
  [ ⟨"CNY=X", "💱 美元/人民币", some (fun p => fmtFixedN 4 p)⟩,
    ⟨"BTC-USD", "🪙 比特币", some (fun p => "$ " ++ fmtComma2 p)⟩,
    ⟨"^TNX", "🇺🇸 10年美债", some (fun p => fmtFixedN 3 p ++ "%")⟩ ]

/-- Lines 102–108 of `fetch_sina`, after `data = text.split('"')[1].split(',')`:
`price = float(data[3]) or float(data[2])`, `prev_close = float(data[2])`,
`change_pct = ((price - prev_close) / prev_close) * 100`, build the quote.
Out-of-range indexing is `IndexError`, a non-numeric field is `ValueError`,
and a zero `prev_close` makes the division raise `ZeroDivisionError`. -/
def sinaQuoteOfData (c : TickerCfg) (data : List String) :
    Except PyErr (Option MarketQuote) :=
  if h3 : 3 < data.length then
    match parseFloat (data.get ⟨3, h3⟩), parseFloat (data.get ⟨2, by omega⟩) with
    | some p3, some p2 =>
        let price := if p3 = 0 then p2 else p3
        if p2 = 0 then .error .zeroDivisionError
        else .ok (some
          { name := c.name
            price := price
            change_pct := (price - p2) / p2 * 100
            formatted_price := c.fmt.map (fun f => f price) })
    | _, _ => .error .valueError
  else .error .indexError

/-- Body of the `try:` block of `MarketFetcher.fetch_sina`, given the
response text: `if "," not in text: return None`, then split on `"` and
`,` and hand the fields to `sinaQuoteOfData`. -/
def fetchSinaBody (c : TickerCfg) (text : String) :
    Except PyErr (Option MarketQuote) :=
  if pyContains text ',' = false then .ok none
  else
    let parts := pySplit text '"'
    if h : 1 < parts.length then
      sinaQuoteOfData c (pySplit (parts.get ⟨1, h⟩) ',')
    else .error .indexError

/-- `MarketFetcher.fetch_sina`: the request outcome (transport failure or
response text) flows through the `try:` body; `except Exception` maps any
error to `None`. -/
def fetch_sina (c : TickerCfg) (r : Except PyErr String) : Option MarketQuote :=
  absorb (r.bind (fetchSinaBody c))

/-- Body of the `try:` block of `MarketFetcher.fetch_yahoo_sync`, given the
price history as `(day, close)` samples: empty frame returns `None`;
otherwise `price = closes.iloc[-1]`, `prev = closes.iloc[0]`,
`change_pct = ((price - prev) / prev) * 100` (raising on `prev = 0`). -/
def fetchYahooBody (c : TickerCfg) (hist : List (ℕ × ℚ)) :
    Except PyErr (Option MarketQuote) :=
  match hist with
  | [] => .ok none
  | h :: t =>
      let price := ((h :: t).getLast (List.cons_ne_nil h t)).2
      let prev := h.2
      if prev = 0 then .error .zeroDivisionError
      else .ok (some
        { name := c.name
          price := price
          change_pct := (price - prev) / prev * 100
          formatted_price := c.fmt.map (fun f => f price) })

/-- `MarketFetcher.fetch_yahoo_sync`: `yf.Ticker(...).history(...)` outcome
in, `except Exception` absorbing any error to `None`. -/
def fetch_yahoo_sync (c : TickerCfg) (r : Except PyErr (List (ℕ × ℚ))) :
    Option MarketQuote :=
  absorb (r.bind (fetchYahooBody c))

/-- Per-ticker adapter results of the Sina half of `fetch_all`, in declared
ticker order (one task per `SINA_TICKERS` entry; `asyncio.gather` keeps
argument order). -/
def sinaOuts (cfg : List TickerCfg) (rs : List (Except PyErr String)) :
    List (Option MarketQuote) :=
  (cfg.zip rs).map (fun p => fetch_sina p.1 p.2)

/-- Per-ticker adapter results of the Yahoo half of `fetch_all`. -/
def yahooOuts (cfg : List TickerCfg) (rs : List (Except PyErr (List (ℕ × ℚ)))) :
    List (Option MarketQuote) :=
  (cfg.zip rs).map (fun p => fetch_yahoo_sync p.1 p.2)

/-- `MarketFetcher.fetch_all`: gather the Sina tasks, keep the non-`None`
quotes, then the Yahoo tasks likewise, extending the same list — so
declared order, failures dropped. -/
def fetchAllQuotes (cfgS : List TickerCfg) (cfgY : List TickerCfg)
    (rsS : List (Except PyErr String)) (rsY : List (Except PyErr (List (ℕ × ℚ)))) :
    List MarketQuote :=
  (sinaOuts cfgS rsS).filterMap id ++ (yahooOuts cfgY rsY).filterMap id

/-- `ReportGenerator._build_market_table`: header plus one row per quote. -/
def buildMarketTable (quotes : List MarketQuote) : String :=
  "| 资产 | 最新价 | 涨跌幅 |\n|---|---|---|\n" ++
    String.intercalate "\n" (quotes.map MarketQuote.to_table_row)

/-- One entry of `NewsFetcher.SOURCES`: display tag, feed URL, candidate
count requested from that source. -/
structure NewsSrc where
  name : String
  url : String
  count : ℕ

/-- `NewsFetcher.SOURCES`. -/
def NEWS_SOURCES : List NewsSrc :=
  [ ⟨"新浪财经", "http://rss.sina.com.cn/roll/finance/hot_roll.xml", 6⟩,
    ⟨"联合早报", "https://www.zaobao.com.sg/rss/finance.xml", 3⟩,
    ⟨"Yahoo", "https://finance.yahoo.com/news/rssindex", 3⟩ ]

/-- `NewsFetcher.fetch_feed`: request outcome in (transport failure, or the
entry titles `feedparser` extracted from the response); on success the
first `count` titles are tagged `【name】title` verbatim; `except Exception`
maps any failure to `[]`. -/
def fetch_feed (name : String) (count : ℕ) (r : Except PyErr (List String)) :
    List String :=
  match r with
  | .error _ => []
  | .ok entries => (entries.take count).map (fun t => "【" ++ name ++ "】" ++ t)

/-- Titles available from a feed outcome (a failed feed offers none);
used to state pool-size facts. -/
def entriesOf : Except PyErr (List String) → List String
  | .error _ => []
  | .ok l => l

/-- The flattened news candidate pool of `NewsFetcher.fetch_all`
(`all_news`): per-source results in declared source order, concatenated. -/
def newsPool (srcs : List NewsSrc) (rs : List (Except PyErr (List String))) :
    List String :=
  ((srcs.zip rs).map (fun p => fetch_feed p.1.name p.1.count p.2)).flatten

/-- `NewsFetcher.fetch_all`: the pool joined with newlines. -/
def news_fetch_all (srcs : List NewsSrc) (rs : List (Except PyErr (List String))) :
    String :=
  String.intercalate "\n" (newsPool srcs rs)

/-- `REPORT_PROMPT.format(date=..., market_table=..., news=...)`: the fixed
instructional template with the three placeholders substituted (template
text abridged to its frame; no claim depends on the prose between the
placeholders, only on where the digest fields are spliced in). -/
def reportPrompt (date table news : String) : String :=
  "\n【角色设定】\n你叫朱文翔，一名资深、稳健的投资顾问。\n" ++
  "【日期】" ++ date ++ "\n\n【素材】\n1. 行情：\n" ++ table ++
  "\n\n2. 新闻池：\n" ++ news ++
  "\n\n【任务】撰写《家庭财富风险管理日报》。\n"

/-- Environment of one `ReportGenerator.generate` cycle: the outcomes of
every external interaction it performs.  `backend` is the
`generate_content` call (`.error` = the call raised; `.ok none` and
`.ok` of the empty string are the falsy `response.text` cases);
`persistOk` is whether `os.makedirs` and the report file write succeed
(they sit inside the same `try:` as the backend call); `emailConfigured`
is the truthiness of `settings.email_user`; `assembleOutcome` is the
unguarded first phase of `EmailSender.send` — `markdown.markdown`, the
Jinja render, MIME assembly and the attachment `open`/`read`, none of
which sit inside `send`'s internal `try:`, so an error there propagates
out of `send` into `generate`'s `except`; `smtpOk` is the SMTP session
phase, whose errors `send` does catch, returning `False`. -/
structure GenEnv where
  dateStr : String
  sinaResps : List (Except PyErr String)
  yahooResps : List (Except PyErr (List (ℕ × ℚ)))
  newsResps : List (Except PyErr (List String))
  backend : Except PyErr (Option String)
  persistOk : Bool
  emailConfigured : Bool
  assembleOutcome : Except PyErr Unit
  smtpOk : Bool

/-- `EmailSender.send`: without a configured mailbox it logs and returns
`False` at once; otherwise the message-assembly phase runs unguarded (it
may raise), and only then the SMTP session runs inside `send`'s own
`try:`, whose failure is caught and reported as `False`. -/
def emailSend (configured : Bool) (assemble : Except PyErr Unit) (smtpOk : Bool) :
    Except PyErr Bool :=
  if configured = false then .ok false
  else
    match assemble with
    | .error e => .error e
    | .ok _ => .ok smtpOk

/-- `ReportGenerator.generate`: fetch quotes and news (both absorb their
own failures), build the table and prompt, call the backend inside `try:`;
empty or missing response text logs and returns `None`; a raising backend
call, a raising persistence step, or a raising email-assembly phase inside
`send` is caught by the same `except` and also returns `None`; `send`'s
boolean result (SMTP success or caught SMTP failure) is ignored; otherwise
the text is returned.  The backend outcome is an input here, so the prompt
string is computed (as in the source) but does not steer control flow. -/
def generate (env : GenEnv) : Option String :=
  let quotes := fetchAllQuotes SINA_TICKERS YAHOO_TICKERS env.sinaResps env.yahooResps
  let table := buildMarketTable quotes
  let news := news_fetch_all NEWS_SOURCES env.newsResps
  let _prompt := reportPrompt env.dateStr table news
  match env.backend with
  | .error _ => none
  | .ok none => none
  | .ok (some t) =>
      if t = "" then none
      else if env.persistOk then
        match emailSend env.emailConfigured env.assembleOutcome env.smtpOk with
        | .error _ => none
        | .ok _ => some t
      else none

/-- Insert task index `i` into a completion-order list, earlier latency
first (stable for ties, like event arrival). -/
def insertByLat (lat : List ℕ) (i : ℕ) : List ℕ → List ℕ
  | [] => [i]
  | j :: rest =>
      if lat.getD i 0 < lat.getD j 0 then i :: j :: rest
      else j :: insertByLat lat i rest

/-- Completion order of tasks `0 .. lat.length - 1` under latencies `lat`. -/
def completionOrder (lat : List ℕ) : List ℕ :=
  (List.range lat.length).foldr (insertByLat lat) []

/-- `asyncio.gather` semantics under simulated latencies: task results
arrive in completion order, and each arrival is written into the result
slot of its task index; the slot list (in task order) is returned. -/
def gatherSim (lat : List ℕ) (xs : List α) (d : α) : List α :=
  ((completionOrder lat).map (fun i => (i, xs.getD i d))).foldl
    (fun acc p => acc.set p.1 p.2) (List.replicate xs.length d)

/-- `MarketFetcher.fetch_all` with the two `asyncio.gather` calls run under
explicit simulated latencies (one latency per Sina task, one per Yahoo
task). -/
def fetchAllWithLat (cfgS cfgY : List TickerCfg)
    (rsS : List (Except PyErr String)) (rsY : List (Except PyErr (List (ℕ × ℚ))))
    (latS latY : List ℕ) : List MarketQuote :=
  (gatherSim latS (sinaOuts cfgS rsS) none).filterMap id ++
    (gatherSim latY (yahooOuts cfgY rsY) none).filterMap id

/-- The two numeric fields of a quote that the change computation owns;
display formatting must not touch them. -/
def numericFields (q : MarketQuote) : ℚ × ℚ := (q.price, q.change_pct)

/-- Modelled from the spec ("takes the last sample as current and the
earliest non-duplicate-day sample as the reference baseline; if the window
contains only one distinct day, reference baseline = current"): the
baseline the windowed-history adapter is *specified* to use, for
comparison with what `fetch_yahoo_sync` actually computes. -/
def specYahooBaseline (hist : List (ℕ × ℚ)) : Option ℚ :=
  match hist with
  | [] => none
  | h :: t =>
      let lastS := (h :: t).getLast (List.cons_ne_nil h t)
      match (h :: t).filter (fun s => s.1 ≠ lastS.1) with
      | [] => some lastS.2
      | p :: _ => some p.2

/-- Concrete per-source fetch outcomes used by whole-orchestrator witnesses:
source 2 of three times out, the others answer. -/
def cRsS : List (Except PyErr String) :=
  [.ok "v=\"a,b,3000,3150\"", .error .timeout, .ok "v=\"a,b,100,90\""]

/-- Concrete Yahoo history outcomes used by whole-orchestrator witnesses. -/
def cRsY : List (Except PyErr (List (ℕ × ℚ))) :=
  [.ok [(1, 7)], .error .network, .ok []]



/-- C2: for every raw sample whose reference baseline is non-zero, the
computed change_pct equals (price - previous_reference) / previous_reference
* 100, and it is exactly 0 when price equals previous_reference; this holds
for both the polling-snapshot (Sina) adapter and the windowed-history
(Yahoo) adapter. -/
theorem change_pct_formula :
    (∀ (c : TickerCfg) (data : List String) (p3 p2 : ℚ) (h3 : 3 < data.length),
      parseFloat (data.get ⟨3, h3⟩) = some p3 →
      parseFloat (data.get ⟨2, by omega⟩) = some p2 →
      p2 ≠ 0 →
      ∃ q : MarketQuote, sinaQuoteOfData c data = .ok (some q) ∧
        q.change_pct = (q.price - p2) / p2 * 100 ∧
        (q.price = p2 → q.change_pct = 0))
    ∧ (∀ (c : TickerCfg) (h : ℕ × ℚ) (t : List (ℕ × ℚ)),
      h.2 ≠ 0 →
      ∃ q : MarketQuote, fetch_yahoo_sync c (.ok (h :: t)) = some q ∧
        q.change_pct = (q.price - h.2) / h.2 * 100 ∧
        (q.price = h.2 → q.change_pct = 0)) := by
  constructor
  · intro c data p3 p2 h3 hp3 hp2 hne
    refine ⟨⟨c.name, if p3 = 0 then p2 else p3,
        ((if p3 = 0 then p2 else p3) - p2) / p2 * 100,
        c.fmt.map (fun f => f (if p3 = 0 then p2 else p3))⟩, ?_, rfl, ?_⟩
    · unfold sinaQuoteOfData
      rw [dif_pos h3, hp3, hp2]
      dsimp only
      rw [if_neg hne]
    · show (if p3 = 0 then p2 else p3) = p2 → _ = (0 : ℚ)
      intro hpq
      rw [hpq]
      simp
  · intro c h t hne
    refine ⟨⟨c.name, ((h :: t).getLast (List.cons_ne_nil h t)).2,
        (((h :: t).getLast (List.cons_ne_nil h t)).2 - h.2) / h.2 * 100,
        c.fmt.map (fun f => f (((h :: t).getLast (List.cons_ne_nil h t)).2))⟩,
        ?_, rfl, ?_⟩
    · show absorb (fetchYahooBody c (h :: t)) = _
      unfold fetchYahooBody
      dsimp only
      rw [if_neg hne]
      rfl
    · show ((h :: t).getLast (List.cons_ne_nil h t)).2 = h.2 → _ = (0 : ℚ)
      intro hpq
      rw [hpq]
      simp

/-- Witness for C2 at concrete parsed payloads. -/
theorem change_pct_formula_witness :
    (∃ q : MarketQuote,
      sinaQuoteOfData ⟨"sh000001", "上证", none⟩ ["a", "b", "100", "110"] = .ok (some q) ∧
      q.change_pct = (q.price - 100) / 100 * 100 ∧ (q.price = 100 → q.change_pct = 0))
    ∧ (∃ q : MarketQuote,
      fetch_yahoo_sync ⟨"BTC-USD", "btc", none⟩ (.ok [(1, 50), (2, 55)]) = some q ∧
      q.change_pct = (q.price - 50) / 50 * 100 ∧ (q.price = 50 → q.change_pct = 0)) :=
  ⟨change_pct_formula.1 ⟨"sh000001", "上证", none⟩ ["a", "b", "100", "110"] 110 100
      (by decide) (by decide) (by decide) (by norm_num),
   change_pct_formula.2 ⟨"BTC-USD", "btc", none⟩ (1, 50) [(2, 55)] (by norm_num)⟩

/-- C3: a zero reference baseline makes the change computation raise
ZeroDivisionError inside the adapter body, and the adapter boundary absorbs
any such error: the call returns normally with the absent result instead of
propagating an arithmetic exception. -/
theorem zero_baseline_no_raise :
    (∀ (c : TickerCfg) (data : List String) (h3 : 3 < data.length),
      (parseFloat (data.get ⟨3, h3⟩)).isSome = true →
      parseFloat (data.get ⟨2, by omega⟩) = some 0 →
      sinaQuoteOfData c data = .error .zeroDivisionError)
    ∧ (∀ (c : TickerCfg) (r : Except PyErr String) (e : PyErr),
      r.bind (fetchSinaBody c) = .error e → fetch_sina c r = none) := by
  constructor
  · intro c data h3 hp3 hp2
    obtain ⟨p3, hp3'⟩ := Option.isSome_iff_exists.mp hp3
    unfold sinaQuoteOfData
    rw [dif_pos h3, hp3', hp2]
    dsimp only
    rw [if_pos rfl]
  · intro c r e h
    unfold fetch_sina
    rw [h]
    rfl

/-- Witness for C3 at a concrete zero-baseline payload. -/
theorem zero_baseline_no_raise_witness :
    sinaQuoteOfData ⟨"sh518880", "gold", none⟩ ["a", "b", "0", "50"] = .error .zeroDivisionError
    ∧ fetch_sina ⟨"sh518880", "gold", none⟩ (.ok "x,\"a,b,0,50\"") = none :=
  ⟨zero_baseline_no_raise.1 ⟨"sh518880", "gold", none⟩ ["a", "b", "0", "50"]
      (by decide) (by decide) (by decide),
   zero_baseline_no_raise.2 ⟨"sh518880", "gold", none⟩ (.ok "x,\"a,b,0,50\"")
      .zeroDivisionError (by rfl)⟩

/-- C9: the configured unit_transform/formatter affects only the displayed
string: price and change_pct are identical whether or not a formatter is
configured, and the formatter output lands only in formatted_price, applied
to the already-computed numeric price. -/
theorem formatter_only_display :
    ∀ (code nm : String) (f : ℚ → String) (data : List String),
      ((sinaQuoteOfData ⟨code, nm, some f⟩ data).map (Option.map numericFields)
        = (sinaQuoteOfData ⟨code, nm, none⟩ data).map (Option.map numericFields))
      ∧ (∀ q : MarketQuote, sinaQuoteOfData ⟨code, nm, some f⟩ data = .ok (some q) →
          q.formatted_price = some (f q.price)) := by
  intro code nm f data
  constructor
  · unfold sinaQuoteOfData
    by_cases h3 : 3 < data.length
    · rw [dif_pos h3, dif_pos h3]
      cases hp3 : parseFloat (data.get ⟨3, h3⟩) with
      | none => rfl
      | some p3 =>
        cases hp2 : parseFloat (data.get ⟨2, by omega⟩) with
        | none => rfl
        | some p2 =>
          dsimp only
          by_cases hz : p2 = 0
          · rw [if_pos hz, if_pos hz]
          · rw [if_neg hz, if_neg hz]
            rfl
    · rw [dif_neg h3, dif_neg h3]
  · intro q h
    unfold sinaQuoteOfData at h
    split at h
    · split at h
      · dsimp only at h
        split at h
        · exact absurd h (by simp)
        · simp only [Except.ok.injEq, Option.some.injEq] at h
          rw [← h]
          rfl
      · exact absurd h (by simp)
    · exact absurd h (by simp)

/-- Witness for C9 at a concrete payload and constant formatter. -/
theorem formatter_only_display_witness :
    ((sinaQuoteOfData ⟨"sh518880", "gold", some (fun _ => "P")⟩ ["a", "b", "50", "50"]).map
        (Option.map numericFields)
      = (sinaQuoteOfData ⟨"sh518880", "gold", none⟩ ["a", "b", "50", "50"]).map
        (Option.map numericFields))
    ∧ (⟨"gold", 50, (50 - 50) / 50 * 100, some "P"⟩ : MarketQuote).formatted_price
      = some ((fun _ => "P") (⟨"gold", 50, (50 - 50) / 50 * 100, some "P"⟩ : MarketQuote).price) :=
  ⟨(formatter_only_display "sh518880" "gold" (fun _ => "P") ["a", "b", "50", "50"]).1,
   (formatter_only_display "sh518880" "gold" (fun _ => "P") ["a", "b", "50", "50"]).2
      ⟨"gold", 50, (50 - 50) / 50 * 100, some "P"⟩ (by rfl)⟩

/-- C7 counterexample: a two-sample window on a single distinct day (day 5,
closes 100 then 110).  The claim says the reference baseline is the earliest
non-duplicate-day sample — here, with one distinct day, the current price
110, yielding zero change — but `fetch_yahoo_sync` uses the first sample of
the window (100) unconditionally and reports a 10% change. -/
theorem yahoo_baseline_counterexample :
    fetch_yahoo_sync ⟨"CNY=X", "fx", none⟩ (.ok [(5, 100), (5, 110)])
      = some ⟨"fx", 110, (110 - 100) / 100 * 100, none⟩
    ∧ specYahooBaseline [(5, 100), (5, 110)] = some 110
    ∧ ((110 : ℚ) - 100) / 100 * 100 = 10
    ∧ (10 : ℚ) ≠ 0 :=
  ⟨rfl, rfl, by norm_num, by norm_num⟩

/-- C7 amended: for every non-empty window with non-zero first close, the
current price is the last sample and the reference baseline is the *first
sample of the window*, irrespective of calendar days; only a one-sample
window makes the baseline coincide with the current price and the change
zero. -/
theorem yahoo_first_sample_baseline :
    ∀ (c : TickerCfg) (h : ℕ × ℚ) (t : List (ℕ × ℚ)), h.2 ≠ 0 →
      ∃ q : MarketQuote, fetch_yahoo_sync c (.ok (h :: t)) = some q ∧
        q.price = ((h :: t).getLast (List.cons_ne_nil h t)).2 ∧
        q.change_pct = (q.price - h.2) / h.2 * 100 ∧
        (t = [] → q.change_pct = 0) := by
  intro c h t hne
  refine ⟨⟨c.name, ((h :: t).getLast (List.cons_ne_nil h t)).2,
      (((h :: t).getLast (List.cons_ne_nil h t)).2 - h.2) / h.2 * 100,
      c.fmt.map (fun f => f (((h :: t).getLast (List.cons_ne_nil h t)).2))⟩,
      ?_, rfl, rfl, ?_⟩
  · show absorb (fetchYahooBody c (h :: t)) = _
    unfold fetchYahooBody
    dsimp only
    rw [if_neg hne]
    rfl
  · intro ht
    subst ht
    show (([h].getLast (List.cons_ne_nil h [])).2 - h.2) / h.2 * 100 = 0
    simp

/-- Witness for the amended C7 at a concrete two-day window. -/
theorem yahoo_first_sample_baseline_witness :
    ∃ q : MarketQuote, fetch_yahoo_sync ⟨"^TNX", "t", none⟩ (.ok [(1, 50), (2, 60)]) = some q ∧
      q.price = (([(1, 50), (2, 60)] : List (ℕ × ℚ)).getLast (List.cons_ne_nil (1, 50) [(2, 60)])).2 ∧
      q.change_pct = (q.price - (50 : ℚ)) / 50 * 100 ∧
      ([((2 : ℕ), (60 : ℚ))] = [] → q.change_pct = 0) :=
  yahoo_first_sample_baseline ⟨"^TNX", "t", none⟩ (1, 50) [(2, 60)] (by norm_num)

/-- C4 counterexample: with every quote source failed (empty quote list),
`_build_market_table` returns exactly the two header lines and no further
row — no "data unavailable" marker row exists, contradicting the claim that
the table contains a single explicit placeholder row. -/
theorem market_table_empty_counterexample :
    buildMarketTable [] = "| 资产 | 最新价 | 涨跌幅 |\n|---|---|---|\n"
    ∧ pySplit (buildMarketTable []) '\n'
      = ["| 资产 | 最新价 | 涨跌幅 |", "|---|---|---|", ""] :=
  ⟨rfl, rfl⟩

/-- C4 amended: building the market table never raises and always starts
with the header; when every source failed the result is exactly the header
with zero data rows (so "no data" is distinguishable from absence of the
table, but only by the absence of rows, not by a placeholder row). -/
theorem market_table_no_raise :
    ∀ quotes : List MarketQuote,
      buildMarketTable quotes
        = "| 资产 | 最新价 | 涨跌幅 |\n|---|---|---|\n" ++
            String.intercalate "\n" (quotes.map MarketQuote.to_table_row)
      ∧ (quotes = [] → buildMarketTable quotes = "| 资产 | 最新价 | 涨跌幅 |\n|---|---|---|\n") := by
  intro quotes
  refine ⟨rfl, ?_⟩
  intro h
  subst h
  rfl

/-- Witness for the amended C4 at the empty quote list. -/
theorem market_table_no_raise_witness :
    buildMarketTable []
      = "| 资产 | 最新价 | 涨跌幅 |\n|---|---|---|\n" ++
          String.intercalate "\n" (([] : List MarketQuote).map MarketQuote.to_table_row)
    ∧ buildMarketTable [] = "| 资产 | 最新价 | 涨跌幅 |\n|---|---|---|\n" :=
  ⟨(market_table_no_raise []).1, (market_table_no_raise []).2 rfl⟩

/-- C10 counterexample: a feed entry whose title carries embedded markup is
pooled verbatim — the pooled item still contains the markup character, so
no stripping happens before entering the candidate pool. -/
theorem headline_markup_counterexample :
    fetch_feed "Yahoo" 3 (.ok ["<b>Fed</b> cuts rates"])
      = ["【Yahoo】<b>Fed</b> cuts rates"]
    ∧ pyContains "【Yahoo】<b>Fed</b> cuts rates" '<' = true
    ∧ pyContains "<b>Fed</b> cuts rates" '<' = true :=
  ⟨rfl, rfl, rfl⟩

/-- C10 amended: `fetch_feed` places each of the first `count` parsed titles
in the pool verbatim, prefixed with the source tag; the repository code
performs no markup stripping (any sanitisation would belong to the external
feed parser), and a failed feed contributes nothing. -/
theorem headline_verbatim :
    ∀ (nm : String) (k : ℕ) (entries : List String) (e : PyErr),
      fetch_feed nm k (.ok entries)
        = (entries.take k).map (fun t => "【" ++ nm ++ "】" ++ t)
      ∧ fetch_feed nm k (.error e) = [] :=
  fun _ _ _ _ => ⟨rfl, rfl⟩

/-- C8: each news source with configured candidate count contributes exactly
min(entries, count) tagged items; the pool is the per-source blocks
concatenated in declared source order; its total size is the sum of the
per-source minima; a source with zero entries contributes nothing; and the
spec's example (caps 6 and 3, returns 4 and 3) yields a pool of 7. -/
theorem news_pool_shape :
    ∀ (srcs : List NewsSrc) (rs : List (Except PyErr (List String))),
      newsPool srcs rs
        = ((srcs.zip rs).map (fun p => fetch_feed p.1.name p.1.count p.2)).flatten
      ∧ (newsPool srcs rs).length
        = ((srcs.zip rs).map (fun p => min (entriesOf p.2).length p.1.count)).sum
      ∧ (∀ (nm : String) (k : ℕ) (r : Except PyErr (List String)),
          (fetch_feed nm k r).length = min (entriesOf r).length k)
      ∧ (∀ (nm : String) (k : ℕ), fetch_feed nm k (.ok []) = [])
      ∧ (newsPool [⟨"A", "", 6⟩, ⟨"B", "", 3⟩]
          [.ok ["a1", "a2", "a3", "a4"], .ok ["b1", "b2", "b3"]]).length = 7 := by
  have hf : ∀ (nm : String) (k : ℕ) (r : Except PyErr (List String)),
      (fetch_feed nm k r).length = min (entriesOf r).length k := by
    intro nm k r
    cases r with
    | error e => simp [fetch_feed, entriesOf]
    | ok es =>
        simp [fetch_feed, entriesOf, List.length_take, Nat.min_comm]
  intro srcs rs
  refine ⟨rfl, ?_, hf, by intro nm k; simp [fetch_feed], rfl⟩
  unfold newsPool
  rw [List.length_flatten, List.map_map]
  congr 1
  apply List.map_congr_left
  intro p _
  exact hf p.1.name p.1.count p.2

/-- C6 counterexample: two cycles whose backend call succeeds with the
non-empty text "report", yet `generate` returns `None`: once because the
persistence step inside the same `try:` raises, and once because the
email-assembly phase of `EmailSender.send` (markdown/MIME assembly and the
attachment open/read, which sit before `send`'s internal SMTP `try:`)
raises — so "no report" is not equivalent to "the generative step
failed". -/
theorem generate_persist_counterexample :
    generate ⟨"2025-01-01", [], [], [], .ok (some "report"), false, true, .ok (), true⟩ = none
    ∧ generate ⟨"2025-01-01", [], [], [], .ok (some "report"), true, true, .error .osError, true⟩ = none
    ∧ (some "report" : Option String) ≠ none
    ∧ "report" ≠ "" :=
  ⟨rfl, rfl, by simp, by simp⟩

/-- C6 amended: `generate` returns `None` exactly when the backend call
errors, its response text is missing/empty, the persistence write inside
the same `try:` raises, or the unguarded email-assembly phase of `send`
raises; whenever the backend returns non-empty text, persistence succeeds
and `send` returns a boolean (SMTP success or caught SMTP failure alike),
the report is returned — quote/news fetch failures (any `sinaResps`/
`yahooResps`/`newsResps`) never cause `None`, an unconfigured mailbox
makes `send` return `False` without raising, and there is no retry (one
backend outcome decides the cycle). -/
theorem generate_none_iff :
    ∀ env : GenEnv,
      (generate env = none ↔
        ((∃ e, env.backend = .error e) ∨ env.backend = .ok none
          ∨ env.backend = .ok (some "") ∨ env.persistOk = false
          ∨ (∃ e, emailSend env.emailConfigured env.assembleOutcome env.smtpOk
                = .error e)))
      ∧ (∀ (t : String) (sendResult : Bool), env.backend = .ok (some t) → t ≠ "" →
          env.persistOk = true →
          emailSend env.emailConfigured env.assembleOutcome env.smtpOk = .ok sendResult →
          generate env = some t)
      ∧ (env.emailConfigured = false →
          emailSend env.emailConfigured env.assembleOutcome env.smtpOk = .ok false) := by
  intro env
  rcases env with ⟨d, s, y, n, b, p, cfg, asm, smtp⟩
  refine ⟨?_, ?_, ?_⟩
  · cases b with
    | error e =>
        simp [generate]
    | ok ot =>
        cases ot with
        | none => simp [generate]
        | some t =>
            by_cases ht : t = ""
            · subst ht
              simp [generate]
            · cases p with
              | false => simp [generate, ht]
              | true =>
                  rcases hes : emailSend cfg asm smtp with e | sr
                  · simp [generate, ht, hes]
                  · simp [generate, ht, hes]
  · intro t sendResult hb ht hp hes
    cases b with
    | error e => exact absurd hb (by simp)
    | ok ot =>
        simp only [Except.ok.injEq] at hb
        subst hb
        subst hp
        simp [generate, ht, hes]
  · intro hcfg
    subst hcfg
    simp [emailSend]

/-- Witness for the amended C6: a cycle whose SMTP delivery fails (caught
inside `send`) still returns the report, and an unconfigured mailbox makes
`send` return `False` without raising. -/
theorem generate_none_iff_witness :
    generate ⟨"2025-01-01", [], [], [], .ok (some "r"), true, true, .ok (), false⟩ = some "r"
    ∧ emailSend false (.error .osError) true = .ok false :=
  ⟨(generate_none_iff
      ⟨"2025-01-01", [], [], [], .ok (some "r"), true, true, .ok (), false⟩).2.1
      "r" false rfl (by simp) rfl rfl,
   (generate_none_iff
      ⟨"2025-01-01", [], [], [], .error .apiError, true, false, .error .osError, true⟩).2.2
      rfl⟩

/-- Erasing index `i` commutes with zipping (helper). -/
theorem zip_eraseIdx : ∀ (l : List α) (r : List β) (i : ℕ),
    (l.eraseIdx i).zip (r.eraseIdx i) = (l.zip r).eraseIdx i := by
  intro l
  induction l with
  | nil => intro r i; simp
  | cons a l ih =>
      intro r i
      cases r with
      | nil => simp
      | cons b r =>
          cases i with
          | zero => simp [List.eraseIdx, List.zip]
          | succ n => simpa [List.eraseIdx, List.zip] using ih r n

/-- Erasing index `i` commutes with mapping (helper). -/
theorem map_eraseIdx' (f : α → β) : ∀ (l : List α) (i : ℕ),
    (l.eraseIdx i).map f = (l.map f).eraseIdx i := by
  intro l
  induction l with
  | nil => intro i; simp
  | cons a l ih =>
      intro i
      cases i with
      | zero => simp [List.eraseIdx]
      | succ n => simp [List.eraseIdx, ih n]

/-- Dropping a slot that holds `none` does not change the collected
successes (helper). -/
theorem filterMap_id_eraseIdx : ∀ (outs : List (Option α)) (i : ℕ), i < outs.length →
    outs.getD i none = none → (outs.eraseIdx i).filterMap id = outs.filterMap id := by
  intro outs
  induction outs with
  | nil => intro i hi _; simp at hi
  | cons o os ih =>
      intro i hi h
      cases i with
      | zero =>
          simp only [List.getD_cons_zero] at h
          subst h
          simp [List.eraseIdx]
      | succ n =>
          have hlen : n < os.length := by simpa using hi
          have h' : os.getD n none = none := by simpa [List.getD_cons_succ] using h
          cases o with
          | none => simp [List.eraseIdx, ih n hlen h']
          | some a => simp [List.eraseIdx, ih n hlen h']

/-- A successful slot is a member of the result list (helper). -/
theorem mem_of_getD_some : ∀ (l : List (Option α)) (j : ℕ) (q : α),
    l.getD j none = some q → (some q) ∈ l := by
  intro l
  induction l with
  | nil => intro j q h; simp [List.getD] at h
  | cons o os ih =>
      intro j q h
      cases j with
      | zero =>
          simp only [List.getD_cons_zero] at h
          subst h
          exact List.mem_cons_self _ _
      | succ n =>
          simp only [List.getD_cons_succ] at h
          exact List.mem_cons_of_mem _ (ih n q h)

/-- C1: a failing source's adapter result is `none` (every raised error is
absorbed at the adapter boundary — `fetch_all` is a total function into a
plain quote list), the failed source is excluded from the digest exactly as
if it were not configured, every successful source's quote still appears,
and in particular transport errors and empty payloads map to `none`. -/
theorem fetch_all_isolates_failures :
    ∀ (cfgS cfgY : List TickerCfg) (rsS : List (Except PyErr String))
      (rsY : List (Except PyErr (List (ℕ × ℚ)))) (i : ℕ),
      rsS.length = cfgS.length →
      i < cfgS.length →
      (sinaOuts cfgS rsS).getD i none = none →
      (fetchAllQuotes cfgS cfgY rsS rsY
          = fetchAllQuotes (cfgS.eraseIdx i) cfgY (rsS.eraseIdx i) rsY)
      ∧ (∀ (j : ℕ) (q : MarketQuote), (sinaOuts cfgS rsS).getD j none = some q →
            q ∈ fetchAllQuotes cfgS cfgY rsS rsY)
      ∧ (∀ (j : ℕ) (q : MarketQuote), (yahooOuts cfgY rsY).getD j none = some q →
            q ∈ fetchAllQuotes cfgS cfgY rsS rsY)
      ∧ (∀ (c : TickerCfg) (e : PyErr), fetch_sina c (.error e) = none)
      ∧ (∀ c : TickerCfg, fetch_sina c (.ok "") = none) := by
  intro cfgS cfgY rsS rsY i hlen hi hfail
  have hzlen : (sinaOuts cfgS rsS).length = cfgS.length := by
    simp [sinaOuts, hlen]
  refine ⟨?_, ?_, ?_, fun c e => rfl, fun c => rfl⟩
  · unfold fetchAllQuotes
    have he : sinaOuts (cfgS.eraseIdx i) (rsS.eraseIdx i)
        = (sinaOuts cfgS rsS).eraseIdx i := by
      unfold sinaOuts
      rw [zip_eraseIdx, map_eraseIdx']
    rw [he, filterMap_id_eraseIdx (sinaOuts cfgS rsS) i (by omega) hfail]
  · intro j q h
    exact List.mem_append_left _ (List.mem_filterMap.mpr ⟨some q, mem_of_getD_some _ j q h, rfl⟩)
  · intro j q h
    exact List.mem_append_right _ (List.mem_filterMap.mpr ⟨some q, mem_of_getD_some _ j q h, rfl⟩)

/-- Witness for C1: three Sina sources of which the second times out. -/
theorem fetch_all_isolates_failures_witness :
    (fetchAllQuotes SINA_TICKERS YAHOO_TICKERS cRsS cRsY
        = fetchAllQuotes (SINA_TICKERS.eraseIdx 1) YAHOO_TICKERS (cRsS.eraseIdx 1) cRsY)
    ∧ (∀ (j : ℕ) (q : MarketQuote), (sinaOuts SINA_TICKERS cRsS).getD j none = some q →
          q ∈ fetchAllQuotes SINA_TICKERS YAHOO_TICKERS cRsS cRsY)
    ∧ (∀ (j : ℕ) (q : MarketQuote), (yahooOuts YAHOO_TICKERS cRsY).getD j none = some q →
          q ∈ fetchAllQuotes SINA_TICKERS YAHOO_TICKERS cRsS cRsY)
    ∧ (∀ (c : TickerCfg) (e : PyErr), fetch_sina c (.error e) = none)
    ∧ (∀ c : TickerCfg, fetch_sina c (.ok "") = none) :=
  fetch_all_isolates_failures SINA_TICKERS YAHOO_TICKERS cRsS cRsY 1 rfl (by decide) rfl

/-- Membership in latency-ordered insertion (helper). -/
theorem mem_insertByLat : ∀ (lat : List ℕ) (i x : ℕ) (l : List ℕ),
    x ∈ insertByLat lat i l ↔ x = i ∨ x ∈ l := by
  intro lat i x l
  induction l with
  | nil => simp [insertByLat]
  | cons j rest ih =>
      by_cases hc : lat.getD i 0 < lat.getD j 0
      · simp only [insertByLat]
        rw [if_pos hc]
        simp [List.mem_cons]
      · simp only [insertByLat]
        rw [if_neg hc]
        simp only [List.mem_cons, ih]
        tauto

/-- The completion order contains exactly the task indices (helper). -/
theorem mem_completionOrder : ∀ (lat : List ℕ) (x : ℕ),
    x ∈ completionOrder lat ↔ x ∈ List.range lat.length := by
  intro lat x
  unfold completionOrder
  generalize List.range lat.length = l
  induction l with
  | nil => simp
  | cons a l ih => simp [List.foldr, mem_insertByLat, ih]

/-- Writing arrivals into slots preserves the slot-list length (helper). -/
theorem foldl_set_length (pairs : List (ℕ × α)) : ∀ acc : List α,
    (pairs.foldl (fun a p => a.set p.1 p.2) acc).length = acc.length := by
  induction pairs with
  | nil => intro acc; rfl
  | cons p ps ih => intro acc; simp [List.foldl, ih, List.length_set]

/-- Reading a slot after one write (helper). -/
theorem getD_set' : ∀ (l : List α) (i k : ℕ) (v d : α),
    (l.set i v).getD k d = if k = i ∧ i < l.length then v else l.getD k d := by
  intro l
  induction l with
  | nil => intro i k v d; simp
  | cons a l ih =>
      intro i k v d
      cases i with
      | zero =>
          cases k with
          | zero => simp
          | succ km => simp
      | succ n =>
          cases k with
          | zero => simp
          | succ km =>
              simp only [List.set, List.getD_cons_succ, ih n km, List.length_cons]
              congr 1
              simp [Nat.succ_lt_succ_iff]

/-- Writing `(i, g i)` pairs in any arrival order leaves slot `k` holding
`g k` once `k` was written (helper). -/
theorem foldl_write (g : ℕ → α) (d : α) :
    ∀ (ids : List ℕ) (acc : List α) (k : ℕ), k < acc.length →
      ((ids.map (fun i => (i, g i))).foldl (fun a p => a.set p.1 p.2) acc).getD k d
        = if k ∈ ids then g k else acc.getD k d := by
  intro ids
  induction ids with
  | nil => intro acc k hk; simp
  | cons i ids ih =>
      intro acc k hk
      simp only [List.map, List.foldl]
      rw [ih (acc.set i (g i)) k (by simpa [List.length_set] using hk)]
      by_cases hki : k ∈ ids
      · simp [hki]
      · simp only [hki, if_false]
        rw [getD_set']
        by_cases hk2 : k = i
        · subst hk2
          simp [hk, List.mem_cons]
        · simp [hk2, hki, List.mem_cons]

/-- `asyncio.gather` semantics: whatever the per-task latencies, the result
list is in task order (helper). -/
theorem gatherSim_eq (lat : List ℕ) (xs : List α) (d : α) (h : lat.length = xs.length) :
    gatherSim lat xs d = xs := by
  have hlen : (gatherSim lat xs d).length = xs.length := by
    unfold gatherSim
    rw [foldl_set_length]
    simp
  apply List.ext_get hlen
  intro n h1 h2
  have hmem : n ∈ completionOrder lat := by
    rw [mem_completionOrder, List.mem_range, h]
    exact h2
  have hw := foldl_write (fun i => xs.getD i d) d (completionOrder lat)
      (List.replicate xs.length d) n (by simpa using h2)
  rw [if_pos hmem] at hw
  have hg1 : (gatherSim lat xs d).get ⟨n, h1⟩ = (gatherSim lat xs d).getD n d :=
    (List.getD_eq_getElem _ _ h1).symm
  rw [hg1]
  unfold gatherSim
  rw [hw]
  exact List.getD_eq_getElem _ _ h2

/-- C5: the orchestrator's output order equals the declared configuration
order — all Sina tickers in `SINA_TICKERS` order, then all Yahoo tickers in
`YAHOO_TICKERS` order, minus failed ones — and is identical under any two
assignments of per-task latencies: completion order never leaks into output
order. -/
theorem fetch_all_order_latency_free :
    ∀ (cfgS cfgY : List TickerCfg) (rsS : List (Except PyErr String))
      (rsY : List (Except PyErr (List (ℕ × ℚ)))) (latS latY latS2 latY2 : List ℕ),
      latS.length = (sinaOuts cfgS rsS).length →
      latY.length = (yahooOuts cfgY rsY).length →
      latS2.length = (sinaOuts cfgS rsS).length →
      latY2.length = (yahooOuts cfgY rsY).length →
      fetchAllWithLat cfgS cfgY rsS rsY latS latY
          = fetchAllWithLat cfgS cfgY rsS rsY latS2 latY2
      ∧ fetchAllWithLat cfgS cfgY rsS rsY latS latY
          = fetchAllQuotes cfgS cfgY rsS rsY := by
  intro cfgS cfgY rsS rsY latS latY latS2 latY2 h1 h2 h3 h4
  have e1 : fetchAllWithLat cfgS cfgY rsS rsY latS latY
      = fetchAllQuotes cfgS cfgY rsS rsY := by
    unfold fetchAllWithLat fetchAllQuotes
    rw [gatherSim_eq _ _ _ h1, gatherSim_eq _ _ _ h2]
  have e2 : fetchAllWithLat cfgS cfgY rsS rsY latS2 latY2
      = fetchAllQuotes cfgS cfgY rsS rsY := by
    unfold fetchAllWithLat fetchAllQuotes
    rw [gatherSim_eq _ _ _ h3, gatherSim_eq _ _ _ h4]
  exact ⟨e1.trans e2.symm, e1⟩

/-- Witness for C5: two reorderings of simulated latencies give the same
output as the declared-order result. -/
theorem fetch_all_order_latency_free_witness :
    fetchAllWithLat SINA_TICKERS YAHOO_TICKERS cRsS cRsY [30, 10, 20] [5, 0, 0]
        = fetchAllWithLat SINA_TICKERS YAHOO_TICKERS cRsS cRsY [1, 2, 3] [9, 9, 9]
    ∧ fetchAllWithLat SINA_TICKERS YAHOO_TICKERS cRsS cRsY [30, 10, 20] [5, 0, 0]
        = fetchAllQuotes SINA_TICKERS YAHOO_TICKERS cRsS cRsY :=
  fetch_all_order_latency_free SINA_TICKERS YAHOO_TICKERS cRsS cRsY
    [30, 10, 20] [5, 0, 0] [1, 2, 3] [9, 9, 9] rfl rfl rfl rfl
